import Mathlib

/-!
# Verification of the pricewatch order-book aggregator

Shallow embedding of `src/src/main.rs` (a streaming limit-order-book
aggregator consuming Binance depth updates).

Modelling choices:

* `rust_decimal::Decimal` values are modelled as exact rationals `ℚ`.
  All prices/quantities appearing in the claims are small exact decimals,
  far from `Decimal`'s 96-bit mantissa limits, and the only division the
  code performs is the final `weighted_sum / total_quantity`.
* `std::collections::BinaryHeap<T>` is modelled by its backing vector as a
  `List`.  `push` appends the element and then performs Rust's `sift_up`
  (move the new element towards the root while it is strictly greater than
  its parent at index `(i-1)/2`); `iter()` yields the backing vector in
  index order, which is exactly the list itself.  `Ord for Order` in the
  source compares by `price` only, so the sift comparisons below use only
  the price field; the ask heap is `BinaryHeap<Reverse<Order>>`, i.e. the
  same structure with the price comparison flipped.
* the `String` price/quantity fields of the wire message are modelled as
  already-parsed rationals (`Decimal::from_str(...).unwrap()` succeeded);
  the claims under study concern well-typed numeric updates only.
-/

namespace PriceWatch

/-- `struct Order { price: Decimal, quantity: Decimal }` from the source. -/
structure Order where
  price : ℚ
  quantity : ℚ
deriving DecidableEq, Inhabited

/-- Comparison used by the bid heap sift: `Ord for Order` compares by
price only, and `bids : BinaryHeap<Order>` is a max-heap, so the new
element moves up while its price is strictly greater than its parent's. -/
def bidGt (x y : Order) : Bool := decide (y.price < x.price)

/-- Comparison used by the ask heap sift: `asks : BinaryHeap<Reverse<Order>>`,
and `Reverse` flips the price comparison, so the new element moves up while
its price is strictly smaller than its parent's. -/
def askGt (x y : Order) : Bool := decide (x.price < y.price)

/-- Rust `BinaryHeap` sift-up on the backing vector: starting from index
`i`, swap the element with its parent at `(i-1)/2` while it compares
strictly greater (`gt`), as in `sift_up` of `std::collections::BinaryHeap`.
The recursion is structural on a fuel argument so that it reduces in the
kernel; the parent index `i / 2` of position `i + 1` is strictly smaller
than `i + 1`, so any fuel ≥ the starting index makes the fuel branch
unreachable (`siftUp` below passes the starting index itself). -/
def siftUpAux (gt : Order → Order → Bool) : Nat → List Order → Nat → List Order
  | _, l, 0 => l
  | 0, l, _ + 1 => l
  | fuel + 1, l, i + 1 =>
    let p := i / 2
    let xi := l.getD (i + 1) default
    let xp := l.getD p default
    if gt xi xp then siftUpAux gt fuel ((l.set (i + 1) xp).set p xi) p else l

/-- Sift-up from index `i`, with fuel `i` (sufficient: each step moves to a
strictly smaller index). -/
def siftUp (gt : Order → Order → Bool) (l : List Order) (i : Nat) : List Order :=
  siftUpAux gt i l i

/-- `BinaryHeap::push`: append to the backing vector, then sift up from the
last index. -/
def heapPush (gt : Order → Order → Bool) (l : List Order) (x : Order) : List Order :=
  siftUp gt (l ++ [x]) l.length

/-- `struct OrderBook { bids: BinaryHeap<Order>, asks: BinaryHeap<Reverse<Order>> }`,
each heap given by its backing vector. -/
structure OrderBook where
  bids : List Order
  asks : List Order
deriving DecidableEq

/-- `OrderBook::new()`: two empty heaps. -/
def OrderBook.new : OrderBook := ⟨[], []⟩

/-- `OrderBook::add_order`: pushes the order onto the chosen heap.  The
source panics on an unknown `order_type`; that branch is unreachable from
`handle_message` (which only passes `"bid"` and `"ask"`) and is modelled
as the identity. -/
def OrderBook.add_order (book : OrderBook) (order : Order) (order_type : String) : OrderBook :=
  if order_type = "bid" then { book with bids := heapPush bidGt book.bids order }
  else if order_type = "ask" then { book with asks := heapPush askGt book.asks order }
  else book

/-- `struct WebSocketMessage` from the source, with the `String` entries of
`b`/`a` modelled as parsed (price, quantity) rationals. -/
structure WebSocketMessage where
  e : String
  E : Nat
  s : String
  U : Nat
  u : Nat
  b : List (ℚ × ℚ)
  a : List (ℚ × ℚ)

/-- The book-building part of `handle_message`: it creates a **fresh**
`OrderBook::new()` and then pushes every bid and ask entry of this single
message into it.  (The source then computes and prints prices; that part
is modelled by `spread_calc` below.) -/
def handle_message (message : WebSocketMessage) : OrderBook :=
  let order_book := OrderBook.new
  let order_book := message.b.foldl
    (fun bk bid => bk.add_order ⟨bid.1, bid.2⟩ "bid") order_book
  let order_book := message.a.foldl
    (fun bk ask => bk.add_order ⟨ask.1, ask.2⟩ "ask") order_book
  order_book

/-- The `while let Some(message) = socket.next()` loop of `main`: each text
message is handled by `handle_message`, which builds its own book, so the
book state after a session is the book of the last message alone (`none`
when no message arrived). -/
def main_loop (messages : List WebSocketMessage) : Option OrderBook :=
  messages.foldl (fun _ message => some (handle_message message)) none

/-- The `for order in heap.iter()` loop shared verbatim by
`calculate_weighted_average_price_bids` and
`calculate_weighted_average_price_asks` (the two differ only in the
`Reverse` unwrapping, which the heap model already absorbs): fold over the
backing vector carrying `weighted_sum` and `total_quantity`, with the
`>= depth` case consuming `remaining_quantity = depth - total_quantity`
and breaking. -/
def wapLoop : List Order → ℚ → ℚ → ℚ → ℚ × ℚ
  | [], weighted_sum, total_quantity, _ => (weighted_sum, total_quantity)
  | order :: rest, weighted_sum, total_quantity, depth =>
    if total_quantity + order.quantity ≥ depth then
      let remaining_quantity := depth - total_quantity
      (weighted_sum + order.price * remaining_quantity,
       total_quantity + remaining_quantity)
    else
      wapLoop rest (weighted_sum + order.price * order.quantity)
        (total_quantity + order.quantity) depth

/-- `calculate_weighted_average_price_bids`: run the loop over
`bids.iter()` (the backing vector) and return `None` iff the consumed
`total_quantity` is zero, otherwise `Some (weighted_sum / total_quantity)`. -/
def calculate_weighted_average_price_bids (bids : List Order) (depth : ℚ) : Option ℚ :=
  let r := wapLoop bids 0 0 depth
  if r.2 = 0 then none else some (r.1 / r.2)

/-- `calculate_weighted_average_price_asks`: identical to the bids routine
after the `Reverse<Order>` unwrap (`&reverse_order.0`), run over the ask
heap's backing vector. -/
def calculate_weighted_average_price_asks (asks : List Order) (depth : ℚ) : Option ℚ :=
  let r := wapLoop asks 0 0 depth
  if r.2 = 0 then none else some (r.1 / r.2)

/-- The pricing tail of `handle_message` (lines 117–126 of the source):
`unwrap_or(Decimal::ZERO)` on each side, then `spread = ask_avg - bid_avg`.
The source binds `depth = Decimal::from_str("1")`; the computation is
parametric in `depth` and is modelled as such. -/
def spread_calc (book : OrderBook) (depth : ℚ) : ℚ :=
  let bid_avg_price := (calculate_weighted_average_price_bids book.bids depth).getD 0
  let ask_avg_price := (calculate_weighted_average_price_asks book.asks depth).getD 0
  ask_avg_price - bid_avg_price

/-! ## Concrete inputs used by claim theorems -/

/-- A first feed message applying the bid level (100, 5). -/
def msgA : WebSocketMessage := ⟨"depthUpdate", 1, "BTCUSDT", 1, 1, [(100, 5)], []⟩

/-- A second feed message touching only the bid level (101, 3). -/
def msgB : WebSocketMessage := ⟨"depthUpdate", 2, "BTCUSDT", 2, 2, [(101, 3)], []⟩

/-- The bid heap obtained by pushing prices 1, 5, 2 (quantity 1 each). -/
def heap152 : List Order :=
  (((OrderBook.new.add_order ⟨1, 1⟩ "bid").add_order ⟨5, 1⟩ "bid").add_order
    ⟨2, 1⟩ "bid").bids

/-- The bid heap of the spec's reference book: levels (100, 2) and (99, 5). -/
def bidHeapRef : List Order :=
  ((OrderBook.new.add_order ⟨100, 2⟩ "bid").add_order ⟨99, 5⟩ "bid").bids

/-- The spec's end-to-end scenario message: bids (100, 2), (99, 5) and asks
(101, 3), (102, 4) applied to an empty book. -/
def msgRef : WebSocketMessage :=
  ⟨"depthUpdate", 1, "BTCUSDT", 1, 1, [(100, 2), (99, 5)], [(101, 3), (102, 4)]⟩

/-- Computed backing vector of the reference bid heap. -/
lemma bidHeapRef_eq : bidHeapRef = [⟨100, 2⟩, ⟨99, 5⟩] := by decide

/-- Computed backing vector after pushing prices 1, 5, 2. -/
lemma heap152_eq : heap152 = [⟨5, 1⟩, ⟨1, 1⟩, ⟨2, 1⟩] := by decide

/-- Computed book of the end-to-end scenario message. -/
lemma msgRef_book :
    handle_message msgRef = ⟨[⟨100, 2⟩, ⟨99, 5⟩], [⟨101, 3⟩, ⟨102, 4⟩]⟩ := by decide

/-! ## General lemmas about the weighted-average loop -/

/-- The two duplicated routines are extensionally the same function of the
backing vector: the source bodies differ only in the `Reverse` unwrap,
which the heap model absorbs at push time. -/
lemma asks_eq_bids :
    calculate_weighted_average_price_asks = calculate_weighted_average_price_bids := rfl

/-- While `total_quantity < depth`, a zero-quantity order in the iterated
sequence falls into the fully-consume branch and contributes nothing to
either accumulator, so the loop result ignores it. -/
lemma wapLoop_skip_zero (l2 : List Order) (p : ℚ) :
    ∀ (l1 : List Order) (ws tq depth : ℚ), tq < depth →
      wapLoop (l1 ++ ⟨p, 0⟩ :: l2) ws tq depth = wapLoop (l1 ++ l2) ws tq depth := by
  intro l1
  induction l1 with
  | nil =>
    intro ws tq depth h
    simp only [List.nil_append, wapLoop]
    rw [if_neg (by simpa using not_le.mpr h)]
    norm_num
  | cons o rest ih =>
    intro ws tq depth h
    simp only [List.cons_append, wapLoop]
    by_cases hc : tq + o.quantity ≥ depth
    · rw [if_pos hc, if_pos hc]
    · rw [if_neg hc, if_neg hc]
      exact ih _ _ _ (by linarith [not_le.mp hc])

/-- When every quantity in the sequence is nonnegative and their total
cannot reach the depth, every level falls into the fully-consume branch
and the loop returns the sums over the entire sequence. -/
lemma wapLoop_all_consumed :
    ∀ (orders : List Order) (ws tq depth : ℚ),
      (∀ o ∈ orders, 0 ≤ o.quantity) →
      tq + (orders.map Order.quantity).sum < depth →
      wapLoop orders ws tq depth =
        (ws + (orders.map (fun o => o.price * o.quantity)).sum,
         tq + (orders.map Order.quantity).sum) := by
  intro orders
  induction orders with
  | nil => intro ws tq depth _ _; simp [wapLoop]
  | cons o rest ih =>
    intro ws tq depth hq hlt
    have hrest : ∀ x ∈ rest, 0 ≤ x.quantity := fun x hx => hq x (List.mem_cons_of_mem _ hx)
    have hsum : 0 ≤ (rest.map Order.quantity).sum := by
      apply List.sum_nonneg
      intro x hx
      obtain ⟨y, hy, rfl⟩ := List.mem_map.mp hx
      exact hrest y hy
    simp only [List.map_cons, List.sum_cons] at hlt ⊢
    have hc : ¬ tq + o.quantity ≥ depth := by
      push_neg
      linarith [hq o (List.mem_cons_self o rest)]
    simp only [wapLoop]
    rw [if_neg hc, ih _ _ _ hrest (by linarith)]
    simp only [Prod.mk.injEq]
    constructor <;> ring

/-- A side whose levels all carry nonnegative quantity yields `None` at
depth 0: the empty side never accumulates, and a nonempty side hits the
`total_quantity + quantity ≥ depth` branch at the first level with
`remaining_quantity = 0`. -/
lemma wap_zero_depth (orders : List Order)
    (h : ∀ o ∈ orders, 0 ≤ o.quantity) :
    calculate_weighted_average_price_bids orders 0 = none := by
  cases orders with
  | nil => simp [calculate_weighted_average_price_bids, wapLoop]
  | cons o rest =>
    have h0 : (0 : ℚ) ≤ o.quantity := h o (List.mem_cons_self o rest)
    simp only [calculate_weighted_average_price_bids, wapLoop]
    rw [if_pos (show (0 : ℚ) + o.quantity ≥ 0 by linarith)]
    norm_num

/-! ## Claim theorems -/

/-- C1: the claim states the OrderBook persists across all feed messages of
the session.  The code instead calls `OrderBook::new()` inside
`handle_message`, so the session state after two messages is the second
message's book alone: the level (100, 5) applied by the first message and
untouched by the second has vanished. -/
theorem c1_book_recreated_per_message :
    main_loop [msgA, msgB] = some (handle_message msgB) ∧
    (handle_message msgA).bids = [⟨100, 5⟩] ∧
    (handle_message msgB).bids = [⟨101, 3⟩] ∧
    ((handle_message msgB).bids.filter (fun o => decide (o.price = 100))) = [] := by
  decide

/-- C2: the claim states `apply_update(Bid, 100, 5)` then
`apply_update(Bid, 100, 3)` leaves exactly one level at price 100 with
quantity 3.  The code's `add_order` only pushes onto the heap, so both
orders coexist: two levels at price 100, the first still with quantity 5. -/
theorem c2_upsert_not_implemented :
    ((OrderBook.new.add_order ⟨100, 5⟩ "bid").add_order ⟨100, 3⟩ "bid").bids =
      [⟨100, 5⟩, ⟨100, 3⟩] ∧
    (((OrderBook.new.add_order ⟨100, 5⟩ "bid").add_order ⟨100, 3⟩ "bid").bids.filter
      (fun o => decide (o.price = 100))).length = 2 := by
  decide

/-- C3: the claim states a quantity-0 update removes the level at that price
and never adds a level.  The code's `add_order` pushes unconditionally: a
zero-quantity order is added to an empty book, and pushing (100, 0) onto a
book holding (100, 5) removes nothing and adds a second level. -/
theorem c3_zero_quantity_not_delete :
    (OrderBook.new.add_order ⟨100, 0⟩ "bid").bids = [⟨100, 0⟩] ∧
    ((OrderBook.new.add_order ⟨100, 5⟩ "bid").add_order ⟨100, 0⟩ "bid").bids =
      [⟨100, 5⟩, ⟨100, 0⟩] := by
  decide

/-- C4 counterexample: the claim states that when total resting quantity
(here 2 + 5 = 7) is strictly below the requested depth (here 10) the query
returns absence.  The code consumes all levels and, since
`total_quantity = 7 ≠ 0`, returns `Some((100*2 + 99*5) / 7) = Some(695/7)`,
not `None`. -/
theorem c4_insufficient_depth_counterexample :
    calculate_weighted_average_price_bids bidHeapRef 10 = some (695 / 7) := by
  rw [bidHeapRef_eq]
  norm_num [calculate_weighted_average_price_bids, wapLoop]

/-- C5: the claim states an update entry with price ≤ 0 is rejected without
being applied.  `handle_message` performs no validation: the entry with
price −1 is pushed into the book (it even sifts below the valid level
pushed after it). -/
theorem c5_invalid_update_applied :
    (handle_message ⟨"depthUpdate", 1, "BTCUSDT", 1, 1,
      [(-1, 5), (100, 2)], []⟩).bids = [⟨100, 2⟩, ⟨-1, 5⟩] := by
  decide

/-- C6: the claim states pricing iteration proceeds from best price outward.
The code iterates `BinaryHeap::iter()`, which yields the backing vector in
index order: after pushing prices 1, 5, 2 the vector is [5, 1, 2] — the
first element is indeed the maximum, but the sequence is not sorted
descending, and the weighted average at depth 2 is (5·1 + 1·1)/2 = 3
instead of the best-outward (5·1 + 2·1)/2 = 7/2. -/
theorem c6_iteration_not_best_outward :
    heap152.map Order.price = [5, 1, 2] ∧
    ¬ List.Sorted (· ≥ ·) (heap152.map Order.price) ∧
    calculate_weighted_average_price_bids heap152 2 = some 3 := by
  rw [heap152_eq]
  refine ⟨by decide, by decide, ?_⟩
  norm_num [calculate_weighted_average_price_bids, wapLoop]

/-- C7: on the bid side holding exactly the levels (100, 2) and (99, 5)
(whichever order the two updates arrive in, the heap's backing vector is
[(100, 2), (99, 5)]), the query at depth 4 fully consumes (100, 2),
partially consumes 2 units of (99, 5), and returns
(100·2 + 99·2)/4 = 199/2 = 99.5. -/
theorem c7_depth_exactness :
    calculate_weighted_average_price_bids bidHeapRef 4 = some (199 / 2) ∧
    calculate_weighted_average_price_bids
      (((OrderBook.new.add_order ⟨99, 5⟩ "bid").add_order ⟨100, 2⟩ "bid").bids) 4 =
      some (199 / 2) := by
  have h2 : ((OrderBook.new.add_order ⟨99, 5⟩ "bid").add_order ⟨100, 2⟩ "bid").bids =
      [⟨100, 2⟩, ⟨99, 5⟩] := by decide
  rw [bidHeapRef_eq, h2]
  norm_num [calculate_weighted_average_price_bids, wapLoop]

/-- C8 counterexample: the claim states depth = 0 yields absence for every
book side.  A side holding a negative-quantity order — reachable because
`add_order` never validates — falls into the fully-consume branch
(0 + (−5) ≥ 0 is false), leaves `total_quantity = −5 ≠ 0`, and the query
returns `Some((100·(−5))/(−5)) = Some 100`. -/
theorem c8_zero_depth_counterexample :
    calculate_weighted_average_price_bids
      ((OrderBook.new.add_order ⟨100, -5⟩ "bid").bids) 0 = some 100 := by
  have h : (OrderBook.new.add_order ⟨100, -5⟩ "bid").bids = [⟨100, -5⟩] := by decide
  rw [h]
  norm_num [calculate_weighted_average_price_bids, wapLoop]

/-- C9: the reported spread is exactly the ask-side weighted average minus
the bid-side weighted average, each side's absence deterministically
replaced by zero (`unwrap_or(Decimal::ZERO)`); and on the spec's end-to-end
scenario (bids (100, 2), (99, 5); asks (101, 3), (102, 4); depth 2) the bid
price is 100, the ask price is 101 and the spread is 1. -/
theorem c9_spread_composition :
    (∀ (book : OrderBook) (depth : ℚ),
      spread_calc book depth =
        (calculate_weighted_average_price_asks book.asks depth).getD 0 -
        (calculate_weighted_average_price_bids book.bids depth).getD 0) ∧
    calculate_weighted_average_price_bids (handle_message msgRef).bids 2 = some 100 ∧
    calculate_weighted_average_price_asks (handle_message msgRef).asks 2 = some 101 ∧
    spread_calc (handle_message msgRef) 2 = 1 := by
  rw [msgRef_book]
  refine ⟨fun _ _ => rfl, ?_, ?_, ?_⟩ <;>
    norm_num [spread_calc, calculate_weighted_average_price_bids,
      calculate_weighted_average_price_asks, wapLoop]

/-- C4 amended: when the side's quantities are nonnegative, their total is
positive but strictly below the requested depth, the query does not return
absence — it consumes every level and returns the volume-weighted average
over the whole side; absence arises only when the consumed quantity is
zero. -/
theorem c4_full_consumption_fallback (orders : List Order) (depth : ℚ)
    (hq : ∀ o ∈ orders, 0 ≤ o.quantity)
    (hlt : (orders.map Order.quantity).sum < depth)
    (hne : (orders.map Order.quantity).sum ≠ 0) :
    calculate_weighted_average_price_bids orders depth =
      some ((orders.map (fun o => o.price * o.quantity)).sum /
            (orders.map Order.quantity).sum) ∧
    calculate_weighted_average_price_asks orders depth =
      some ((orders.map (fun o => o.price * o.quantity)).sum /
            (orders.map Order.quantity).sum) := by
  have h := wapLoop_all_consumed orders 0 0 depth hq (by linarith)
  rw [asks_eq_bids, and_self]
  simp only [calculate_weighted_average_price_bids, h, zero_add]
  rw [if_neg hne]

/-- Witness for `c4_full_consumption_fallback` at the reference side
(100, 2), (99, 5) with depth 10. -/
theorem c4_full_consumption_fallback_witness :
    (∀ o ∈ [Order.mk 100 2, Order.mk 99 5], 0 ≤ o.quantity) ∧
    ([Order.mk 100 2, Order.mk 99 5].map Order.quantity).sum < 10 ∧
    ([Order.mk 100 2, Order.mk 99 5].map Order.quantity).sum ≠ 0 ∧
    calculate_weighted_average_price_bids [Order.mk 100 2, Order.mk 99 5] 10 =
      some (([Order.mk 100 2, Order.mk 99 5].map (fun o => o.price * o.quantity)).sum /
            ([Order.mk 100 2, Order.mk 99 5].map Order.quantity).sum) :=
  ⟨by decide, by norm_num, by norm_num,
   (c4_full_consumption_fallback [Order.mk 100 2, Order.mk 99 5] 10
     (by decide) (by norm_num) (by norm_num)).1⟩

/-- C8 amended: for every book side all of whose levels carry a
nonnegative quantity (any side built from validated updates), the query at
depth = 0 returns absence, on the bid and the ask routine alike. -/
theorem c8_zero_depth_absence (bids asks : List Order)
    (hb : ∀ o ∈ bids, 0 ≤ o.quantity) (ha : ∀ o ∈ asks, 0 ≤ o.quantity) :
    calculate_weighted_average_price_bids bids 0 = none ∧
    calculate_weighted_average_price_asks asks 0 = none := by
  rw [asks_eq_bids]
  exact ⟨wap_zero_depth bids hb, wap_zero_depth asks ha⟩

/-- Witness for `c8_zero_depth_absence` on the nonempty bid side
[(100, 2)] and the empty ask side. -/
theorem c8_zero_depth_absence_witness :
    (∀ o ∈ [Order.mk 100 2], 0 ≤ o.quantity) ∧
    (∀ o ∈ ([] : List Order), 0 ≤ o.quantity) ∧
    (calculate_weighted_average_price_bids [Order.mk 100 2] 0 = none ∧
     calculate_weighted_average_price_asks ([] : List Order) 0 = none) :=
  ⟨by decide, by decide, c8_zero_depth_absence [Order.mk 100 2] [] (by decide) (by decide)⟩

/-- C10: inserting a zero-quantity order at any position of the sequence
of levels visited by the weighted-average computation leaves its result
unchanged for every level sequence and every depth > 0: since the consumed
total stays strictly below `depth` while the loop runs, the zero-quantity
level always falls into the fully-consume branch and contributes 0 to both
`weighted_sum` and `total_quantity`. -/
theorem c10_zero_quantity_level_neutral (l1 l2 : List Order) (p depth : ℚ)
    (hd : 0 < depth) :
    calculate_weighted_average_price_bids (l1 ++ ⟨p, 0⟩ :: l2) depth =
      calculate_weighted_average_price_bids (l1 ++ l2) depth ∧
    calculate_weighted_average_price_asks (l1 ++ ⟨p, 0⟩ :: l2) depth =
      calculate_weighted_average_price_asks (l1 ++ l2) depth := by
  have h := wapLoop_skip_zero l2 p l1 0 0 depth hd
  rw [asks_eq_bids, and_self]
  simp only [calculate_weighted_average_price_bids, h]

/-- Witness for `c10_zero_quantity_level_neutral`: a zero-quantity level at
price 50 inserted between (100, 2) and (99, 5), at depth 4. -/
theorem c10_zero_quantity_level_neutral_witness :
    (0 : ℚ) < 4 ∧
    (calculate_weighted_average_price_bids ([Order.mk 100 2] ++ Order.mk 50 0 :: [Order.mk 99 5]) 4 =
      calculate_weighted_average_price_bids ([Order.mk 100 2] ++ [Order.mk 99 5]) 4 ∧
     calculate_weighted_average_price_asks ([Order.mk 100 2] ++ Order.mk 50 0 :: [Order.mk 99 5]) 4 =
      calculate_weighted_average_price_asks ([Order.mk 100 2] ++ [Order.mk 99 5]) 4) :=
  ⟨by norm_num,
   c10_zero_quantity_level_neutral [Order.mk 100 2] [Order.mk 99 5] 50 4 (by norm_num)⟩

end PriceWatch
